import Mathlib

/-!
Verification development for the rindexer indexing engine.

The definitions below are a shallow embedding of the code in
src/rindexer_core/src/indexer/start.rs and src/core/src/event/contract_setup.rs.
Block numbers (ethers U64) are modelled as Nat: all block arithmetic in the
embedded code paths is min/subtraction/addition far below 2^64, and the source
panics rather than wraps on overflow, so no modular reduction arises on the
inputs considered here. A log is modelled by its block number, since the claims
only depend on which block range a log falls into and on batch sizes.
-/

namespace Rindexer

/-! ## Start-block resolution (start.rs lines 104-114) -/

/-- Start block as the code computes it (start.rs line 114): a hard-coded hex
constant `U64::from("0x035b0fa7")` = 56299431, ignoring the last synced block,
the configured start block and the latest block. The arguments are kept to
show what the resolution has available and ignores. -/
def start_block_code (_last_known_start_block : Option Nat)
    (_contract_start_block : Option Nat) (_latest_block : Nat) : Nat :=
  0x035b0fa7

/-- Start block as the commented-out line directly above it (start.rs lines
112-113) resolves it: `last_known_start_block.unwrap_or(contract.start_block.unwrap_or(latest_block))`. -/
def start_block_commented (last_known_start_block : Option Nat)
    (contract_start_block : Option Nat) (latest_block : Nat) : Nat :=
  last_known_start_block.getD (contract_start_block.getD latest_block)

/-! ## End-block resolution and reorg clamping (start.rs lines 115-127) -/

/-- End block resolution: `min(contract.end_block.unwrap_or(latest), latest)`,
then, when the contract is reorg safe, clamped to
`safe_block_number = latest_block - reorg_safe_distance`
(start.rs lines 116-127). `reorg_safe_distance_for_chain` lives outside src,
so the distance is taken as a parameter, exactly as the claim treats it. -/
def resolve_end_block (contract_end_block : Option Nat) (latest_block : Nat)
    (reorg_safe : Bool) (reorg_safe_distance : Nat) : Nat :=
  let end_block := min (contract_end_block.getD latest_block) latest_block
  if reorg_safe then
    let safe_block_number := latest_block - reorg_safe_distance
    if end_block > safe_block_number then safe_block_number else end_block
  else
    end_block

/-! ## The block-range loop (start.rs lines 175-184 and 232-240)

Both `process_event_sequentially` and `process_event_concurrently` iterate
`(start_block..end_block).step_by(max_block_range)` and set
`next_block = min(current_block + max_block_range, end_block)`, so each loop
iteration works on the window `(current_block, next_block)`. The loop is
embedded with explicit fuel; `end_block - start_block` steps always suffice
because the cursor advances by `w ≥ 1` each time (Rust `step_by(0)` panics,
so every use below assumes `0 < w`). -/

def windowsAux (w : Nat) : Nat → Nat → Nat → List (Nat × Nat)
  | 0, _, _ => []
  | fuel + 1, start_block, end_block =>
    if start_block < end_block then
      (start_block, min (start_block + w) end_block) ::
        windowsAux w fuel (start_block + w) end_block
    else
      []

/-- Windows generated by the block-range loop for a unit with the given
start block, end block and max block range. -/
def windows (start_block end_block w : Nat) : List (Nat × Nat) :=
  windowsAux w (end_block - start_block) start_block end_block

/-- Membership of a block in the union of the closed windows of a list. -/
def covers (ws : List (Nat × Nat)) (b : Nat) : Prop :=
  ∃ p ∈ ws, p.1 ≤ b ∧ b ≤ p.2

theorem covers_nil (b : Nat) : ¬ covers [] b := by
  rintro ⟨p, hp, -⟩
  exact absurd hp (List.not_mem_nil p)

theorem covers_cons {p : Nat × Nat} {ws : List (Nat × Nat)} {b : Nat} :
    covers (p :: ws) b ↔ (p.1 ≤ b ∧ b ≤ p.2) ∨ covers ws b := by
  constructor
  · rintro ⟨q, hq, hb⟩
    rcases List.mem_cons.mp hq with rfl | hq
    · exact Or.inl hb
    · exact Or.inr ⟨q, hq, hb⟩
  · rintro (hb | ⟨q, hq, hb⟩)
    · exact ⟨p, List.mem_cons_self p ws, hb⟩
    · exact ⟨q, List.mem_cons_of_mem p hq, hb⟩

theorem windowsAux_eq_nil (w fuel start_block end_block : Nat)
    (h : end_block ≤ start_block) : windowsAux w fuel start_block end_block = [] := by
  cases fuel with
  | zero => rfl
  | succ n => simp [windowsAux, Nat.not_lt.mpr h]

theorem windowsAux_mem (w : Nat) :
    ∀ fuel start_block end_block, ∀ p ∈ windowsAux w fuel start_block end_block,
      start_block ≤ p.1 ∧ p.1 < end_block ∧ p.2 = min (p.1 + w) end_block ∧
        ∃ k, p.1 = start_block + k * w := by
  intro fuel
  induction fuel with
  | zero => intro s e p hp; exact absurd hp (List.not_mem_nil p)
  | succ n ih =>
    intro s e p hp
    by_cases hse : s < e
    · simp only [windowsAux, if_pos hse] at hp
      rcases List.mem_cons.mp hp with rfl | hp
      · exact ⟨Nat.le_refl s, hse, rfl, 0, by omega⟩
      · obtain ⟨h1, h2, h3, k, hk⟩ := ih (s + w) e p hp
        refine ⟨by omega, h2, h3, k + 1, ?_⟩
        rw [hk, Nat.succ_mul]
        omega
    · rw [windowsAux_eq_nil w (n + 1) s e (by omega)] at hp
      exact absurd hp (List.not_mem_nil p)

theorem windowsAux_covers (w : Nat) (hw : 0 < w) :
    ∀ fuel start_block end_block, end_block - start_block ≤ fuel →
      start_block < end_block →
      ∀ b, covers (windowsAux w fuel start_block end_block) b ↔
        (start_block ≤ b ∧ b ≤ end_block) := by
  intro fuel
  induction fuel with
  | zero => intro s e h1 h2; omega
  | succ n ih =>
    intro s e h1 h2 b
    simp only [windowsAux, if_pos h2]
    rw [covers_cons]
    by_cases hse : s + w < e
    · rw [ih (s + w) e (by omega) hse b]
      omega
    · rw [windowsAux_eq_nil w n (s + w) e (by omega)]
      have hnone := covers_nil b
      constructor
      · rintro (h | h)
        · omega
        · exact absurd h hnone
      · intro h
        exact Or.inl (by omega)

theorem windowsAux_pairwise (w : Nat) :
    ∀ fuel start_block end_block,
      List.Pairwise (fun p q => p.2 ≤ q.1) (windowsAux w fuel start_block end_block) := by
  intro fuel
  induction fuel with
  | zero => intro s e; exact List.Pairwise.nil
  | succ n ih =>
    intro s e
    by_cases hse : s < e
    · simp only [windowsAux, if_pos hse]
      refine List.Pairwise.cons ?_ (ih (s + w) e)
      intro q hq
      obtain ⟨h1, -, -, -⟩ := windowsAux_mem w n (s + w) e q hq
      simp only []
      omega
    · simp [windowsAux, hse]

/-- Bound on window ends: every window stays at or below the end block. -/
theorem windows_to_le_end (start_block end_block w : Nat) :
    ∀ p ∈ windows start_block end_block w, p.2 ≤ end_block := by
  intro p hp
  obtain ⟨-, -, h3, -⟩ :=
    windowsAux_mem w (end_block - start_block) start_block end_block p hp
  omega

/-! ## Progress store queries (start.rs lines 444-467 and 479-510) -/

/-- Table addressed by `get_last_synced_block_number` (start.rs lines 450-454):
the SELECT goes to rindexer_internal.indexer_event, a TWO-part name built from
the indexer name and the event name only. `camel_to_snake` lives outside src
and is taken as a parameter. -/
def get_last_synced_block_table (camel_to_snake : String → String)
    (indexer_name event_name : String) : String :=
  "rindexer_internal." ++ camel_to_snake indexer_name ++ "_" ++
    camel_to_snake event_name

/-- Table addressed by the conditional UPDATE in `update_progress_and_db`
(start.rs lines 494-501): rindexer_internal.indexer_contract_event, a
THREE-part name. -/
def update_progress_table (camel_to_snake : String → String)
    (indexer_name contract_name event_name : String) : String :=
  "rindexer_internal." ++ camel_to_snake indexer_name ++ "_" ++
    camel_to_snake contract_name ++ "_" ++ camel_to_snake event_name

/-- Effect of the conditional UPDATE on the stored row (start.rs lines
494-508): `SET last_synced_block = $1 WHERE network = $2 AND $1 > last_synced_block`
replaces the stored value only when the new block is strictly greater. -/
def apply_progress_update (stored new_block : Nat) : Nat :=
  if new_block > stored then new_block else stored

theorem apply_progress_update_ge (stored new_block : Nat) :
    stored ≤ apply_progress_update stored new_block := by
  unfold apply_progress_update
  split <;> omega

/-! ## Handling one fetch result (start.rs lines 378-430)

The Ok branch of `handle_logs_result` builds `fn_data` from the logs of the
fetch result, and, when `fn_data` is non-empty, either awaits
`registry.trigger_event` (execute_events_logs_in_order = true) or spawns it as
a detached tokio task (= false); in both cases it then calls
`update_progress_and_db` with `result.to_block`. -/

/-- Delivery mode of a dispatcher call: InOrder models the awaited
`registry.trigger_event(..).await`, Detached models the `tokio::spawn` that
returns immediately. -/
inductive DispatchMode where
  | InOrder : DispatchMode
  | Detached : DispatchMode
deriving DecidableEq, Repr

/-- Observable outcome of the Ok branch of `handle_logs_result`: the
dispatcher call made (none when the batch is empty) and the progress write
issued with the to_block of the fetch result. -/
structure HandledLogs where
  dispatched : Option (DispatchMode × List Nat)
  progress_write : Nat
deriving DecidableEq, Repr

def handle_logs_result (execute_events_logs_in_order : Bool)
    (logs : List Nat) (to_block : Nat) : HandledLogs :=
  { dispatched :=
      if logs.isEmpty then none
      else some
        (if execute_events_logs_in_order then DispatchMode.InOrder
         else DispatchMode.Detached, logs),
    progress_write := to_block }

/-! ## One unit of work (event x network-contract)

`process_logs` (start.rs lines 326-358) opens `fetch_logs_stream` for the
filter of one window and handles every fetch result of that stream; it is
called exactly once per window from inside the block-range loop of
`process_event_sequentially` / `process_event_concurrently`, so a unit whose
loop yields no window never opens a stream, never queries the provider, never
dispatches, never writes progress, and never reaches live tailing. -/

/-- Modelled from the spec: `fetch_logs_stream`
(src/rindexer_core/src/indexer/fetch_logs.rs is not under src). Spec section
4.2 step 3: with no range errors the fetcher yields the logs of the filter
range together with the window bounds, so a filter of width at most the max
range produces one fetch result holding every provider log with block number
inside the closed window. -/
def fetch_window (provider_logs : List Nat) (from_block to_block : Nat) : List Nat :=
  provider_logs.filter (fun b => decide (from_block ≤ b) && decide (b ≤ to_block))

/-- Count of provider logs inside a closed block range. -/
def countInRange (provider_logs : List Nat) (from_block to_block : Nat) : Nat :=
  provider_logs.countP (fun b => decide (from_block ≤ b) && decide (b ≤ to_block))

theorem fetch_window_length (provider_logs : List Nat) (from_block to_block : Nat) :
    (fetch_window provider_logs from_block to_block).length =
      countInRange provider_logs from_block to_block :=
  (List.countP_eq_length_filter _ _).symm

/-- Observable trace of one unit: the window queries issued, the dispatcher
calls made, the progress writes issued, and whether live tailing was ever
entered (a stream opened with live indexing details). -/
structure UnitRun where
  queries : List (Nat × Nat)
  dispatched : List (DispatchMode × List Nat)
  progress_writes : List Nat
  live_entered : Bool
deriving DecidableEq, Repr

/-- Trace of one (event x network-contract) unit over its historical windows:
the block-range loop produces the windows, each window is fetched and handled
by `handle_logs_result`, and live tailing can only be entered through a
`fetch_logs_stream` opened by a `process_logs` call, of which there is one per
window. -/
def process_event (execute_events_logs_in_order live_indexing : Bool)
    (provider_logs : List Nat) (start_block end_block w : Nat) : UnitRun :=
  let ws := windows start_block end_block w
  let handled := ws.map (fun p =>
    handle_logs_result execute_events_logs_in_order
      (fetch_window provider_logs p.1 p.2) p.2)
  { queries := ws,
    dispatched := handled.filterMap (fun h => h.dispatched),
    progress_writes := handled.map (fun h => h.progress_write),
    live_entered := live_indexing && !ws.isEmpty }

/-- Final stored value after folding the conditional progress updates of a
unit run over an initial stored value. -/
def final_progress (stored : Nat) (run : UnitRun) : Nat :=
  run.progress_writes.foldl apply_progress_update stored

/-! ## Supervisor control flow over units (start.rs lines 147-160, 293-297)

A unit is one (event x network-contract) pair; its processing either succeeds
or surfaces an error (the boxed provider error propagated unchanged by the Err
branch of `handle_logs_result`, start.rs lines 425-428). With
`execute_in_event_order = true` the loop in `start_indexing` awaits
`process_event_sequentially(..)?` per unit, so the first unit error returns
from `start_indexing` and the units after it are never started. With
`execute_in_event_order = false` every unit is spawned in the loop before any
join happens, and `process_event_concurrently` joins its window tasks with
`handle.await?;` which propagates only join panics and DISCARDS the inner
Result of each window task, so `start_indexing` observes Ok. Errors are
modelled as strings (the Debug rendering of the boxed error). -/

/-- Sequential supervisor run (`execute_in_event_order = true`): number of
units started and the overall result of `start_indexing`. -/
def start_indexing_in_event_order : List (Except String Unit) → Nat × Except String Unit
  | [] => (0, Except.ok ())
  | u :: rest =>
    match u with
    | Except.error e => (1, Except.error e)
    | Except.ok _ =>
      let r := start_indexing_in_event_order rest
      (r.1 + 1, r.2)

/-- Join loop of `process_event_concurrently` (start.rs lines 293-295): each
`handle.await?;` discards the inner Result of the spawned task, so unit errors
never reach the overall result. -/
def join_concurrent_units : List (Except String Unit) → Except String Unit
  | [] => Except.ok ()
  | _u :: rest => join_concurrent_units rest

/-- Parallel supervisor run (`execute_in_event_order = false`): the spawn loop
(start.rs lines 149-152) starts every unit before any join, hence the unit
count is the full length; the result is what the join loop reports. -/
def start_indexing_parallel (units : List (Except String Unit)) :
    Nat × Except String Unit :=
  (units.length, join_concurrent_units units)

/-- Index and error of the first failing unit, if any. -/
def firstError : List (Except String Unit) → Option (Nat × String)
  | [] => none
  | Except.error e :: _ => some (0, e)
  | Except.ok _ :: rest =>
    (firstError rest).map (fun p => (p.1 + 1, p.2))

/-! ## Contract setup (src/core/src/event/contract_setup.rs)

The payload structures keep the String fields of the source; fields whose
types are defined outside src and that no claim depends on are omitted with a
note: `indexed_filters` (type EventInputIndexedFilters from the manifest), the
`cached_provider` and `decoder` handles (opaque Arc values), and the `id`
field of NetworkContract (`generate_random_id(10)`, a random string). The
manifest detail type behind `contract.details` is likewise not under src and
is modelled from its use in `ContractInformation::create`: its network name,
its indexing contract setup (the source calls the method
`c.indexing_contract_setup()`), and its optional start and end blocks. -/

structure AddressDetails where
  address : String
deriving DecidableEq, Repr

structure FactoryDetails where
  address : String
  event_name : String
  parameter_name : String
  abi : String
deriving DecidableEq, Repr

structure FilterDetails where
  event_name : String
deriving DecidableEq, Repr

inductive IndexingContractSetup where
  | Address : AddressDetails → IndexingContractSetup
  | Filter : FilterDetails → IndexingContractSetup
  | Factory : FactoryDetails → IndexingContractSetup
deriving DecidableEq, Repr

structure ContractDetail where
  network : String
  indexing_contract_setup : IndexingContractSetup
  start_block : Option Nat
  end_block : Option Nat
deriving DecidableEq, Repr

structure Contract where
  name : String
  details : List ContractDetail
  abi : String
  reorg_safe_distance : Option Bool
deriving DecidableEq, Repr

structure CreateNetworkProvider where
  network_name : String
deriving DecidableEq, Repr

structure NetworkContract where
  network : String
  indexing_contract_setup : IndexingContractSetup
  start_block : Option Nat
  end_block : Option Nat
deriving DecidableEq, Repr

structure ContractInformation where
  name : String
  details : List NetworkContract
  abi : String
  reorg_safe_distance : Bool
deriving DecidableEq, Repr

inductive CreateContractInformationError where
  | CanNotFindNetworkFromProviders : String → CreateContractInformationError
deriving DecidableEq, Repr

/-- Loop body of `ContractInformation::create` for one detail whose provider
was found (contract_setup.rs lines 63-71). -/
def detailToNetworkContract (c : ContractDetail) : NetworkContract :=
  { network := c.network,
    indexing_contract_setup := c.indexing_contract_setup,
    start_block := c.start_block,
    end_block := c.end_block }

/-- Loop of `ContractInformation::create` over `contract.details`
(contract_setup.rs lines 48-74): for each detail in order, look up its network
among the providers; the first miss returns
`CanNotFindNetworkFromProviders(network)` immediately, otherwise a
NetworkContract is pushed per detail. -/
def createDetails (network_providers : List CreateNetworkProvider) :
    List ContractDetail → Except CreateContractInformationError (List NetworkContract)
  | [] => Except.ok []
  | c :: rest =>
    match network_providers.find? (fun item => item.network_name == c.network) with
    | none =>
      Except.error (CreateContractInformationError.CanNotFindNetworkFromProviders c.network)
    | some _provider =>
      match createDetails network_providers rest with
      | Except.error e => Except.error e
      | Except.ok ds => Except.ok (detailToNetworkContract c :: ds)

/-- ContractInformation::create (contract_setup.rs lines 42-83):
`reorg_safe_distance` is `contract.reorg_safe_distance.unwrap_or_default()`,
so false when the contract leaves it unset. -/
def ContractInformation.create (contract : Contract)
    (network_providers : List CreateNetworkProvider) :
    Except CreateContractInformationError ContractInformation :=
  match createDetails network_providers contract.details with
  | Except.error e => Except.error e
  | Except.ok details =>
    Except.ok
      { name := contract.name,
        details := details,
        abi := contract.abi,
        reorg_safe_distance := contract.reorg_safe_distance.getD false }

/-- Network of the first detail, in input order, whose network is absent from
the provider list. -/
def firstMissingNetwork (network_providers : List CreateNetworkProvider)
    (ds : List ContractDetail) : Option String :=
  (ds.find? (fun c =>
    (network_providers.find? (fun item => item.network_name == c.network)).isNone)).map
    (fun c => c.network)

/-! ## Supporting lemmas -/

theorem countInRange_split (provider_logs : List Nat) (f m t : Nat)
    (hfm : f ≤ m) (hmt : m < t) :
    countInRange provider_logs f t =
      countInRange provider_logs f m + countInRange provider_logs (m + 1) t := by
  induction provider_logs with
  | nil => rfl
  | cons b l ih =>
    simp only [countInRange, List.countP_cons, Bool.and_eq_true, decide_eq_true_eq] at *
    rw [ih]
    split_ifs <;> omega

theorem isEmpty_false_of_length_ne_zero {l : List Nat} (h : l.length ≠ 0) :
    l.isEmpty = false := by
  cases l with
  | nil => simp at h
  | cons a t => rfl

theorem createDetails_error_iff (network_providers : List CreateNetworkProvider)
    (ds : List ContractDetail) (n : String) :
    createDetails network_providers ds =
        Except.error (CreateContractInformationError.CanNotFindNetworkFromProviders n) ↔
      firstMissingNetwork network_providers ds = some n := by
  induction ds with
  | nil => simp [createDetails, firstMissingNetwork]
  | cons c rest ih =>
    cases hp : network_providers.find? (fun item => item.network_name == c.network) with
    | none =>
      simp [createDetails, hp, firstMissingNetwork, List.find?, eq_comm]
    | some p =>
      have hfm : firstMissingNetwork network_providers (c :: rest) =
          firstMissingNetwork network_providers rest := by
        simp [firstMissingNetwork, List.find?, hp]
      rw [hfm]
      cases hr : createDetails network_providers rest with
      | error e =>
        rw [hr] at ih
        simp only [createDetails, hp, hr]
        exact ih
      | ok ds2 =>
        rw [hr] at ih
        simp only [createDetails, hp, hr]
        constructor
        · intro h
          exact absurd h (by simp)
        · intro h
          exact absurd (ih.mpr h) (by simp)

theorem createDetails_ok_of (network_providers : List CreateNetworkProvider)
    (ds : List ContractDetail)
    (h : firstMissingNetwork network_providers ds = none) :
    createDetails network_providers ds = Except.ok (ds.map detailToNetworkContract) := by
  induction ds with
  | nil => rfl
  | cons c rest ih =>
    cases hp : network_providers.find? (fun item => item.network_name == c.network) with
    | none =>
      exfalso
      simp [firstMissingNetwork, List.find?, hp] at h
    | some p =>
      have hrest : firstMissingNetwork network_providers rest = none := by
        simpa [firstMissingNetwork, List.find?, hp] using h
      simp only [createDetails, hp, ih hrest, List.map]

theorem join_concurrent_units_ok (units : List (Except String Unit)) :
    join_concurrent_units units = Except.ok () := by
  induction units with
  | nil => rfl
  | cons u rest ih => exact ih

/-! ## Claims -/

/-- Claim C1 (code_bug): the claim says the starting block is resolved as the
last synced block, else the configured start block, else the latest block.
The code instead hard-codes the start block to the constant 0x035b0fa7 =
56299431 (start.rs line 114), leaving the correct resolution commented out on
the lines directly above; evaluated at last synced = 150, configured start =
100, latest = 500, the code yields 56299431 where the claimed resolution
yields 150. -/
theorem start_block_is_hardcoded :
    start_block_code (some 150) (some 100) 500 = 56299431 ∧
    start_block_commented (some 150) (some 100) 500 = 150 ∧
    start_block_code (some 150) (some 100) 500 ≠
      start_block_commented (some 150) (some 100) 500 := by
  refine ⟨rfl, rfl, ?_⟩
  decide

/-- Claim C2 (confirmed): for a reorg-safe unit the resolved end block never
exceeds latest minus the safe distance, and consequently the to side of every
window generated by the block-range loop stays at or below latest minus the
safe distance. The hypothesis reflects that the U64 subtraction
`latest_block - reorg_safe_distance` in the source panics on underflow. -/
theorem reorg_safe_end_clamped (contract_end_block : Option Nat)
    (latest_block reorg_safe_distance start_block w : Nat)
    (_hsafe : reorg_safe_distance ≤ latest_block) :
    resolve_end_block contract_end_block latest_block true reorg_safe_distance ≤
      latest_block - reorg_safe_distance ∧
    ∀ p ∈ windows start_block
        (resolve_end_block contract_end_block latest_block true reorg_safe_distance) w,
      p.2 ≤ latest_block - reorg_safe_distance := by
  have hend : resolve_end_block contract_end_block latest_block true reorg_safe_distance ≤
      latest_block - reorg_safe_distance := by
    simp only [resolve_end_block, if_true]
    split <;> omega
  refine ⟨hend, ?_⟩
  intro p hp
  have h2 := windows_to_le_end start_block
    (resolve_end_block contract_end_block latest_block true reorg_safe_distance) w p hp
  omega

/-- Claim C2 witness: latest = 1000, safe distance = 12, no configured end
block, start 0, window width 100. -/
theorem reorg_safe_end_clamped_witness :
    resolve_end_block none 1000 true 12 ≤ 1000 - 12 ∧
    ∀ p ∈ windows 0 (resolve_end_block none 1000 true 12) 100, p.2 ≤ 1000 - 12 :=
  reorg_safe_end_clamped none 1000 12 0 100 (by decide)

/-- Claim C3 counterexample: the claim quantifies over start ≤ end, but at
start = end = 0 with W = 1 the loop yields no window at all, while the closed
interval from 0 to 0 contains the block 0, so the union of the windows does
not equal the interval. -/
theorem windows_union_misses_start_eq_end :
    windows 0 0 1 = [] ∧ ¬ covers (windows 0 0 1) 0 := by
  exact ⟨rfl, covers_nil 0⟩

/-- Claim C3 amended (corrected): for every historical run with start < end
(strictly) and width W ≥ 1, the union of the generated windows equals the
closed interval from start to end; each window has from = start plus a
multiple of W and to = min (from + W) end; and two windows overlap at most at
a single boundary block (the to of an earlier window never exceeds the from of
a later one). When start = end the loop yields no windows. -/
theorem windows_cover_closed_interval (start_block end_block w : Nat)
    (hw : 0 < w) (h : start_block < end_block) :
    (∀ b, covers (windows start_block end_block w) b ↔
        (start_block ≤ b ∧ b ≤ end_block)) ∧
    (∀ p ∈ windows start_block end_block w,
        (∃ k, p.1 = start_block + k * w) ∧ p.2 = min (p.1 + w) end_block) ∧
    List.Pairwise (fun p q => p.2 ≤ q.1) (windows start_block end_block w) := by
  refine ⟨windowsAux_covers w hw _ _ _ (le_refl _) h, ?_,
    windowsAux_pairwise w _ _ _⟩
  intro p hp
  obtain ⟨-, -, h3, k, hk⟩ :=
    windowsAux_mem w (end_block - start_block) start_block end_block p hp
  exact ⟨⟨k, hk⟩, h3⟩

/-- Claim C3 witness: start 0, end 100, width 25; block 50 is covered. -/
theorem windows_cover_closed_interval_witness :
    covers (windows 0 100 25) 50 ↔ ((0 : Nat) ≤ 50 ∧ (50 : Nat) ≤ 100) :=
  (windows_cover_closed_interval 0 100 25 (by decide) (by decide)).1 50

/-- Claim C4 (confirmed): the conditional UPDATE applies only when the new
block is strictly greater than the stored value, so each single write never
decreases the stored value, and across any sequence of writes the persisted
progress is monotonically non-decreasing. -/
theorem progress_monotone (stored : Nat) (writes : List Nat) :
    (∀ new_block, stored ≤ apply_progress_update stored new_block) ∧
    stored ≤ writes.foldl apply_progress_update stored := by
  refine ⟨fun new_block => apply_progress_update_ge stored new_block, ?_⟩
  induction writes generalizing stored with
  | nil => exact le_refl stored
  | cons b l ih =>
    exact le_trans (apply_progress_update_ge stored b)
      (ih (apply_progress_update stored b))

/-- Claim C5 (code_bug): the claim says both progress-store queries address
the three-part table indexer_contract_event. Only the conditional UPDATE does;
the SELECT in `get_last_synced_block_number` builds a two-part name from the
indexer and event names alone, so at indexer myindexer, contract mycontract,
event transfer the read goes to rindexer_internal.myindexer_transfer while the
update goes to rindexer_internal.myindexer_mycontract_transfer. -/
theorem progress_table_names_differ :
    get_last_synced_block_table id "myindexer" "transfer" =
      "rindexer_internal.myindexer_transfer" ∧
    update_progress_table id "myindexer" "mycontract" "transfer" =
      "rindexer_internal.myindexer_mycontract_transfer" ∧
    get_last_synced_block_table id "myindexer" "transfer" ≠
      update_progress_table id "myindexer" "mycontract" "transfer" := by
  refine ⟨rfl, rfl, ?_⟩
  decide

/-- Claim C6 (confirmed): for every non-empty batch, with
execute_event_logs_in_order = true the dispatcher call is the awaited in-order
trigger, and with false it is the detached spawned trigger. -/
theorem dispatch_mode_selection (logs : List Nat) (to_block : Nat)
    (h : logs ≠ []) :
    (handle_logs_result true logs to_block).dispatched =
      some (DispatchMode.InOrder, logs) ∧
    (handle_logs_result false logs to_block).dispatched =
      some (DispatchMode.Detached, logs) := by
  have he : logs.isEmpty = false := by
    cases logs with
    | nil => exact absurd rfl h
    | cons a t => rfl
  constructor <;> simp [handle_logs_result, he]

/-- Claim C6 witness: a one-log batch. -/
theorem dispatch_mode_selection_witness :
    (handle_logs_result true [7] 9).dispatched =
      some (DispatchMode.InOrder, [7]) ∧
    (handle_logs_result false [7] 9).dispatched =
      some (DispatchMode.Detached, [7]) :=
  dispatch_mode_selection [7] 9 (by decide)

/-- Claim C7 counterexample: with two units where the first fails, sequential
mode (`execute_in_event_order = true`) starts only one of the two units: the
`?` on `process_event_sequentially` returns from `start_indexing` before the
second unit is ever started, so the other units do NOT continue running. -/
theorem sequential_error_stops_following_units :
    (start_indexing_in_event_order [Except.error "provider boom", Except.ok ()]).1 = 1 ∧
    (start_indexing_in_event_order [Except.error "provider boom", Except.ok ()]).1 ≠ 2 := by
  refine ⟨rfl, ?_⟩
  decide

/-- Claim C7 amended (corrected): in parallel mode every unit is spawned
before any join, so a failing unit leaves the others running, but unit errors
are discarded by the join loop of `process_event_concurrently` and the overall
result is Ok; in sequential mode the first failing unit aborts
`start_indexing` with that error surfaced unchanged (the raw provider error,
not annotated with event, network or range), and the units after it are never
started. -/
theorem unit_error_isolation (units : List (Except String Unit)) :
    start_indexing_parallel units = (units.length, Except.ok ()) ∧
    (firstError units = none →
      start_indexing_in_event_order units = (units.length, Except.ok ())) ∧
    (∀ i e, firstError units = some (i, e) →
      start_indexing_in_event_order units = (i + 1, Except.error e)) := by
  refine ⟨?_, ?_, ?_⟩
  · unfold start_indexing_parallel
    rw [join_concurrent_units_ok units]
  · intro h
    induction units with
    | nil => rfl
    | cons u rest ih =>
      cases u with
      | error e => simp [firstError] at h
      | ok _ =>
        have hrest : firstError rest = none := by
          simpa [firstError, Option.map_eq_none'] using h
        have := ih hrest
        simp [start_indexing_in_event_order, this]
  · intro i e h
    induction units generalizing i with
    | nil => simp [firstError] at h
    | cons u rest ih =>
      cases u with
      | error e2 =>
        simp only [firstError, Option.some.injEq, Prod.mk.injEq] at h
        obtain ⟨rfl, rfl⟩ := h
        rfl
      | ok _ =>
        simp only [firstError, Option.map_eq_some'] at h
        obtain ⟨⟨pi, pe⟩, hp, hpe⟩ := h
        simp only [Prod.mk.injEq] at hpe
        obtain ⟨hi, he⟩ := hpe
        subst he
        have hrec := ih pi hp
        simp only [start_indexing_in_event_order, hrec]
        rw [← hi]

/-- Claim C7 witness: three units with the middle one failing. -/
theorem unit_error_isolation_witness :
    start_indexing_parallel [Except.ok (), Except.error "boom", Except.ok ()] =
      (3, Except.ok ()) ∧
    start_indexing_in_event_order [Except.ok (), Except.error "boom", Except.ok ()] =
      (2, Except.error "boom") :=
  ⟨(unit_error_isolation [Except.ok (), Except.error "boom", Except.ok ()]).1,
    (unit_error_isolation [Except.ok (), Except.error "boom", Except.ok ()]).2.2
      1 "boom" (by decide)⟩

/-- Claim C8 counterexample: the placement 101, 110, 120, 150, 160, 176, 180,
185, 190, 200 satisfies the scenario counts (3 logs in 100-124, 0 in 125-149,
2 in 150-174, 5 in 175-200), but the loop windows are (100,125), (125,150),
(150,175), (175,200), which share their boundary blocks, so the log at block
150 is fetched by both the second and the third window and the dispatcher is
invoked with batch sizes 3, 1, 2, 5 rather than 3, 2, 5. -/
theorem s1_boundary_log_changes_batches :
    countInRange [101, 110, 120, 150, 160, 176, 180, 185, 190, 200] 100 124 = 3 ∧
    countInRange [101, 110, 120, 150, 160, 176, 180, 185, 190, 200] 125 149 = 0 ∧
    countInRange [101, 110, 120, 150, 160, 176, 180, 185, 190, 200] 150 174 = 2 ∧
    countInRange [101, 110, 120, 150, 160, 176, 180, 185, 190, 200] 175 200 = 5 ∧
    (process_event true false [101, 110, 120, 150, 160, 176, 180, 185, 190, 200]
        100 200 25).dispatched.map (fun d => d.2.length) = [3, 1, 2, 5] ∧
    (process_event true false [101, 110, 120, 150, 160, 176, 180, 185, 190, 200]
        100 200 25).dispatched.map (fun d => d.2.length) ≠ [3, 2, 5] := by
  refine ⟨rfl, rfl, rfl, rfl, rfl, ?_⟩
  decide

/-- Claim C8 amended (corrected): in scenario S1 the dispatcher batch sizes
are 3, 2, 5 with the empty batch skipped and the final persisted progress is
200 PROVIDED no log sits on the shared window-boundary blocks 150 and 175 (the
loop windows overlap by one block; a log on a boundary is fetched twice and
changes the batch sizes). The provider is constrained only by the scenario
counts; the flag for in-order versus detached dispatch does not affect the
sizes or the progress. -/
theorem s1_batches_and_progress (execute_events_logs_in_order : Bool)
    (provider_logs : List Nat)
    (h1 : countInRange provider_logs 100 124 = 3)
    (h2 : countInRange provider_logs 125 149 = 0)
    (h3 : countInRange provider_logs 150 174 = 2)
    (h4 : countInRange provider_logs 175 200 = 5)
    (h5 : countInRange provider_logs 150 150 = 0)
    (h6 : countInRange provider_logs 175 175 = 0) :
    (process_event execute_events_logs_in_order false provider_logs
        100 200 25).dispatched.map (fun d => d.2.length) = [3, 2, 5] ∧
    final_progress 0
      (process_event execute_events_logs_in_order false provider_logs
        100 200 25) = 200 := by
  have c1 : countInRange provider_logs 100 125 = 3 := by
    have hs := countInRange_split provider_logs 100 124 125 (by omega) (by omega)
    have ha := countInRange_split provider_logs 125 125 149 (by omega) (by omega)
    norm_num at hs ha
    omega
  have c2 : countInRange provider_logs 125 150 = 0 := by
    have hs := countInRange_split provider_logs 125 149 150 (by omega) (by omega)
    norm_num at hs
    omega
  have c3 : countInRange provider_logs 150 175 = 2 := by
    have hs := countInRange_split provider_logs 150 174 175 (by omega) (by omega)
    norm_num at hs
    omega
  have L1 : (fetch_window provider_logs 100 125).length = 3 := by
    rw [fetch_window_length]; exact c1
  have L2 : fetch_window provider_logs 125 150 = [] := by
    have hl := fetch_window_length provider_logs 125 150
    rw [c2] at hl
    exact List.length_eq_zero.mp hl
  have L3 : (fetch_window provider_logs 150 175).length = 2 := by
    rw [fetch_window_length]; exact c3
  have L4 : (fetch_window provider_logs 175 200).length = 5 := by
    rw [fetch_window_length]; exact h4
  have E1 : (fetch_window provider_logs 100 125).isEmpty = false :=
    isEmpty_false_of_length_ne_zero (by omega)
  have E3 : (fetch_window provider_logs 150 175).isEmpty = false :=
    isEmpty_false_of_length_ne_zero (by omega)
  have E4 : (fetch_window provider_logs 175 200).isEmpty = false :=
    isEmpty_false_of_length_ne_zero (by omega)
  have hwdef : windows 100 200 25 = [(100, 125), (125, 150), (150, 175), (175, 200)] := by
    decide
  constructor
  · simp only [process_event, hwdef, List.map_cons, List.map_nil,
      handle_logs_result, L2, List.isEmpty_nil, E1, E3, E4,
      if_false, if_true, Bool.false_eq_true, List.filterMap_cons, List.filterMap_nil]
    simp [L1, L3, L4]
  · have hpw : (process_event execute_events_logs_in_order false provider_logs
        100 200 25).progress_writes = [125, 150, 175, 200] := by
      simp [process_event, hwdef, handle_logs_result]
    unfold final_progress
    rw [hpw]
    decide

/-- Claim C8 witness: the placement 101, 110, 120, 151, 160, 176, 180, 185,
190, 200 satisfies the scenario counts with no log on a boundary block. -/
theorem s1_batches_and_progress_witness :
    (process_event true false [101, 110, 120, 151, 160, 176, 180, 185, 190, 200]
        100 200 25).dispatched.map (fun d => d.2.length) = [3, 2, 5] ∧
    final_progress 0
      (process_event true false [101, 110, 120, 151, 160, 176, 180, 185, 190, 200]
        100 200 25) = 200 :=
  s1_batches_and_progress true [101, 110, 120, 151, 160, 176, 180, 185, 190, 200]
    (by decide) (by decide) (by decide) (by decide) (by decide) (by decide)

/-- Claim C9 (confirmed): when the resolved start block is at or above the
resolved end block the block-range loop yields no windows, so the unit issues
no provider queries, makes no dispatcher calls, writes no progress, and never
enters live tailing even when the unit is live, because `process_logs` (the
only place a fetch stream is opened) is called only from inside the loop. -/
theorem empty_range_runs_nothing (execute_events_logs_in_order live_indexing : Bool)
    (provider_logs : List Nat) (start_block end_block w : Nat)
    (h : end_block ≤ start_block) :
    process_event execute_events_logs_in_order live_indexing provider_logs
        start_block end_block w =
      { queries := [], dispatched := [], progress_writes := [], live_entered := false } := by
  have hnil : windows start_block end_block w = [] := by
    unfold windows
    rw [show end_block - start_block = 0 from by omega]
    rfl
  simp [process_event, hnil]

/-- Claim C9 witness: a live unit with start = end = 7. -/
theorem empty_range_runs_nothing_witness :
    process_event true true [1, 2, 3] 7 7 3 =
      { queries := [], dispatched := [], progress_writes := [], live_entered := false } :=
  empty_range_runs_nothing true true [1, 2, 3] 7 7 3 (by decide)

/-- Claim C10 (confirmed): `ContractInformation::create` returns
CanNotFindNetworkFromProviders n exactly when n is the network of the first
detail, in input order, whose network is absent from the provider list; when
no detail is missing its network it succeeds with exactly one NetworkContract
per detail in input order, and with reorg_safe_distance defaulting to false
when the contract leaves it unset (unwrap_or_default). -/
theorem contract_information_create_spec (contract : Contract)
    (network_providers : List CreateNetworkProvider) :
    (∀ n, ContractInformation.create contract network_providers =
        Except.error
          (CreateContractInformationError.CanNotFindNetworkFromProviders n) ↔
      firstMissingNetwork network_providers contract.details = some n) ∧
    (firstMissingNetwork network_providers contract.details = none →
      ContractInformation.create contract network_providers =
        Except.ok
          { name := contract.name,
            details := contract.details.map detailToNetworkContract,
            abi := contract.abi,
            reorg_safe_distance := contract.reorg_safe_distance.getD false }) := by
  constructor
  · intro n
    have h2 := createDetails_error_iff network_providers contract.details n
    cases hr : createDetails network_providers contract.details with
    | error e =>
      rw [hr] at h2
      simpa [ContractInformation.create, hr] using h2
    | ok ds =>
      rw [hr] at h2
      simp only [ContractInformation.create, hr]
      constructor
      · intro h
        exact absurd h (by simp)
      · intro h
        exact absurd (h2.mpr h) (by simp)
  · intro h
    have h3 := createDetails_ok_of network_providers contract.details h
    simp [ContractInformation.create, h3]

/-- Claim C10 witness: a contract over networks eth and base, both present in
the provider list, with reorg_safe_distance unset. -/
theorem contract_information_create_spec_witness :
    ContractInformation.create
        { name := "uniswap",
          details := [
            { network := "eth",
              indexing_contract_setup :=
                IndexingContractSetup.Address { address := "0xaaa" },
              start_block := some 5, end_block := none },
            { network := "base",
              indexing_contract_setup :=
                IndexingContractSetup.Filter { event_name := "Transfer" },
              start_block := none, end_block := some 99 }],
          abi := "[]", reorg_safe_distance := none }
        [{ network_name := "eth" }, { network_name := "base" }] =
      Except.ok
        { name := "uniswap",
          details := [
            { network := "eth",
              indexing_contract_setup :=
                IndexingContractSetup.Address { address := "0xaaa" },
              start_block := some 5, end_block := none },
            { network := "base",
              indexing_contract_setup :=
                IndexingContractSetup.Filter { event_name := "Transfer" },
              start_block := none, end_block := some 99 }],
          abi := "[]", reorg_safe_distance := false } :=
  (contract_information_create_spec
    { name := "uniswap",
      details := [
        { network := "eth",
          indexing_contract_setup :=
            IndexingContractSetup.Address { address := "0xaaa" },
          start_block := some 5, end_block := none },
        { network := "base",
          indexing_contract_setup :=
            IndexingContractSetup.Filter { event_name := "Transfer" },
          start_block := none, end_block := some 99 }],
      abi := "[]", reorg_safe_distance := none }
    [{ network_name := "eth" }, { network_name := "base" }]).2 (by decide)

end Rindexer
